import Mathlib

/-!
Shallow embedding of the shortlink service core (src/app.py).

The embedded functions keep the Python names where Lean allows it:
is_valid_url, gen_code, init_db, ensure_db, shorten, go.  The Flask/HTTP
and psycopg layers are modelled by explicit state passing: the Postgres
`links` table is a list of rows keyed by `code`, a Boolean `available`
models whether the database connection succeeds (psycopg raising on
connect/execute), and exceptions caught by the handlers' try/except
blocks become explicit error results.  The sequence of SQL statements a
request issues against the `links` table is recorded as a trace of
`DbOp` values so that statements such as "no store call is made" or
"uses a SELECT-then-INSERT" can be stated.
-/

namespace Shortlink

/-- Python whitespace for `str.strip()` (ASCII subset: space, tab, newline,
carriage return, vertical tab, form feed). -/
def pyWhitespace (c : Char) : Bool :=
  c == ' ' || c == '\t' || c == '\n' || c == '\r' ||
  c == Char.ofNat 0x0b || c == Char.ofNat 0x0c

/-- Models Python `str.strip()` (line 161: `(data.get("url") or "").strip()`)
on ASCII whitespace: drop leading and trailing whitespace characters. -/
def pyStrip (s : String) : String :=
  String.mk (((s.data.dropWhile pyWhitespace).reverse.dropWhile pyWhitespace).reverse)

/-- WHATWG C0-control-or-space class stripped from the front of a URL by
`urllib.parse.urlsplit` before parsing. -/
def c0ControlOrSpace (c : Char) : Bool :=
  c.toNat ≤ 0x20

/-- The bytes `urlsplit` deletes everywhere in the URL: tab, CR, LF. -/
def unsafeUrlByte (c : Char) : Bool :=
  c == '\t' || c == '\r' || c == '\n'

/-- Characters allowed in a URL scheme by `urlsplit` (its `scheme_chars`):
ASCII letters, digits, plus, minus, dot. -/
def schemeChar (c : Char) : Bool :=
  c.isAlpha || c.isDigit || c == '+' || c == '-' || c == '.'

/-- A character that terminates the netloc component in `urlsplit`'s
`_splitnetloc` (the delimiters searched for after the leading `//`). -/
def netlocEnd (c : Char) : Bool :=
  c == '/' || c == '?' || c == '#'

/-- Scheme extraction of `urlsplit`: if the URL has a colon at a positive
index, the first character is an ASCII letter and everything before the
colon is a scheme character, the scheme is that prefix lowercased and the
remainder follows the colon; otherwise the scheme is empty and the whole
string remains. -/
def splitScheme (l : List Char) : String × List Char :=
  match l.findIdx? (fun c => c == ':') with
  | none => ("", l)
  | some i =>
    if i != 0 && (l.headD ' ').isAlpha && (l.take i).all schemeChar then
      (String.mk ((l.take i).map Char.toLower), l.drop (i + 1))
    else ("", l)

/-- Modelled from the spec and the documented semantics of
`urllib.parse.urlparse` (imported by src/app.py but not part of the
repository): sanitise the URL (strip leading C0 controls and spaces,
delete tab/CR/LF everywhere), extract the scheme, and extract the netloc
as the segment after a leading `//` up to the first `/`, `?` or `#`.
The IPv6 bracketed-host validation of newer CPython is modelled only as
the bracket-mismatch check; a netloc with matching brackets is accepted
as-is. -/
def parseSchemeNetloc (u : String) : String × List Char :=
  let l := (u.data.dropWhile c0ControlOrSpace).filter (fun c => !unsafeUrlByte c)
  let (scheme, rest) := splitScheme l
  let netloc :=
    if rest.take 2 = ['/', '/'] then (rest.drop 2).takeWhile (fun c => !netlocEnd c)
    else []
  (scheme, netloc)

/-- Bracket check of `urlsplit`: it raises ValueError on a netloc holding an unmatched bracket, and
vice versa; `is_valid_url` catches every exception and returns False. -/
def bracketMismatch (netloc : List Char) : Bool :=
  (netloc.contains '[' && !netloc.contains ']') ||
  (netloc.contains ']' && !netloc.contains '[')

/-- Embeds src/app.py lines 56-61: `p = urlparse(u); return p.scheme in ("http",
"https") and bool(p.netloc)`, with every exception mapped to False. -/
def is_valid_url (u : String) : Bool :=
  let (scheme, netloc) := parseSchemeNetloc u
  if bracketMismatch netloc then false
  else (scheme == "http" || scheme == "https") && !netloc.isEmpty

/-- Python `string.ascii_lowercase`. -/
def ascii_lowercase : List Char := "abcdefghijklmnopqrstuvwxyz".data

/-- Python `string.ascii_uppercase`. -/
def ascii_uppercase : List Char := "ABCDEFGHIJKLMNOPQRSTUVWXYZ".data

/-- Python `string.digits`. -/
def asciiDigits : List Char := "0123456789".data

/-- Embeds src/app.py line 64: `alphabet = string.ascii_letters + string.digits`
(`ascii_letters` is lowercase followed by uppercase). -/
def alphabet : List Char := ascii_lowercase ++ ascii_uppercase ++ asciiDigits

/-- Models `secrets.choice(seq)`: pick an element of the sequence chosen by
the randomness source.  The source supplies an arbitrary natural number;
reduction modulo the length makes every value select a valid element, as
`secrets.choice` always returns an element of its argument. -/
def secretsChoice (l : List Char) (r : Nat) : Char :=
  l.getD (r % l.length) ' '

/-- Embeds src/app.py lines 63-65: `gen_code(n=7)` joins `n` characters, each drawn
from the 62-character alphabet by `secrets.choice`.  The randomness source
is passed explicitly: `rand i` is the value driving the i-th draw.  The
Python default argument n=7 is written out at the call sites: `shorten`
invokes `gen_code()` at length 7. -/
def gen_code (rand : Nat → Nat) (n : Nat) : String :=
  String.mk ((List.range n).map fun i => secretsChoice alphabet (rand i))

/-- A row of the `links` table: `code TEXT PRIMARY KEY, url TEXT NOT NULL`
(the `created_at` column is filled by a database default and read by no
operation of the core, so it is not modelled). -/
structure Row where
  code : String
  url : String
deriving DecidableEq, Repr

/-- State visible to the service: the process-global `_db_initialized`
flag (line 32), whether the `links` table exists, the rows of the table,
and whether the database is reachable (psycopg connect/execute succeed).
A table that does not exist has no rows. -/
structure AppState where
  dbInitialized : Bool
  tableExists : Bool
  rows : List Row
  available : Bool
deriving DecidableEq, Repr

/-- Embeds src/app.py lines 44-54: connect and run `CREATE TABLE IF NOT EXISTS
links (...)`.  When the database is unreachable, `get_conn` raises:
`none`.  Otherwise the table exists afterwards and existing rows are
untouched (`IF NOT EXISTS` is a no-op on an existing table). -/
def init_db (s : AppState) : Option AppState :=
  if s.available then some { s with tableExists := true } else none

/-- Embeds src/app.py lines 34-39: run `init_db` once, guarded by the global
`_db_initialized` flag, which is set only after `init_db` returns. -/
def ensure_db (s : AppState) : Option AppState :=
  if s.dbInitialized then some s
  else (init_db s).map fun t => { t with dbInitialized := true }

/-- A SQL statement issued against the `links` table by a request. -/
inductive DbOp where
  | selectCode (code : String)
  | insertRow (code url : String)
  | commit
deriving DecidableEq, Repr

/-- Outcome of the `POST /shorten` handler, named by the HTTP response it
produces (201 created, 400 invalid, 503 unavailable, 500 exhausted). -/
inductive ShortenResult where
  | created (code url : String)
  | invalidInput
  | storeUnavailable
  | codeSpaceExhausted
deriving DecidableEq, Repr

/-- Outcome of the `GET /<code>` handler (302 redirect, 404 not found,
503 unavailable). -/
inductive ResolveResult where
  | redirect (url : String)
  | notFound
  | storeUnavailable
deriving DecidableEq, Repr

/-- HTTP status code returned by `shorten` for each outcome
(lines 164, 189, 192, 194). -/
def shortenStatus : ShortenResult → Nat
  | .created _ _ => 201
  | .invalidInput => 400
  | .storeUnavailable => 503
  | .codeSpaceExhausted => 500

/-- HTTP status code returned by `go` for each outcome
(lines 207, 210, 212). -/
def resolveStatus : ResolveResult → Nat
  | .redirect _ => 302
  | .notFound => 404
  | .storeUnavailable => 503

/-- Embeds the query `SELECT url FROM links WHERE code=%s`: the url of the row whose code
equals the argument exactly (String equality; Postgres TEXT comparison is
case-sensitive).  The primary key keeps at most one match. -/
def lookupCode (rows : List Row) (code : String) : Option String :=
  (rows.find? fun r => r.code == code).map Row.url

/-- Embeds src/app.py lines 172-180: the body of `for _ in range(10)`, with the
ten candidate codes produced by `gen_code` passed as a list.  Each
attempt runs `SELECT 1 FROM links WHERE code=%s`; if no row comes back it
runs a plain `INSERT INTO links (code, url) VALUES (%s, %s)`, commits and
returns 201.  If a row exists the loop continues; an exhausted loop falls
through to the 500 response of line 194.  Returns the trace of SQL
statements, the final rows and the outcome. -/
def shortenLoop (url : String) : List String → List Row → List DbOp × List Row × ShortenResult
  | [], rows => ([], rows, .codeSpaceExhausted)
  | code :: rest, rows =>
    match lookupCode rows code with
    | none =>
      ([.selectCode code, .insertRow code url, .commit],
       rows ++ [⟨code, url⟩], .created code url)
    | some _ =>
      let r := shortenLoop url rest rows
      (.selectCode code :: r.1, r.2)

/-- The request body as the handler sees it: `request.get_json(silent=True)`
returns None on a missing or unparseable body (`noJson`), else a JSON
object whose `url` field may be absent. -/
inductive Body where
  | noJson
  | json (urlField : Option String)
deriving DecidableEq, Repr

/-- Embeds src/app.py lines 160-161: `data = request.get_json(silent=True) or {}`
then `data.get("url") or ""`. -/
def bodyUrl : Body → String
  | .noJson => ""
  | .json none => ""
  | .json (some u) => u

/-- Embeds src/app.py lines 158-194, the `POST /shorten` handler: strip the url
field, validate it (400 before any store interaction), then inside
try/except run `ensure_db`, connect, and the ten-attempt loop; any
database exception becomes the 503 response.  `gen i` is the code
`gen_code()` returns on attempt `i`.  Returns the final state, the trace
of statements against `links`, and the outcome. -/
def shorten (gen : Nat → String) (body : Body) (s : AppState) :
    AppState × List DbOp × ShortenResult :=
  let url := pyStrip (bodyUrl body)
  if !is_valid_url url then (s, [], .invalidInput)
  else
    match ensure_db s with
    | none => (s, [], .storeUnavailable)
    | some s1 =>
      if s1.available then
        let r := shortenLoop url ((List.range 10).map gen) s1.rows
        ({ s1 with rows := r.2.1 }, r.1, r.2.2)
      else (s1, [], .storeUnavailable)

/-- Embeds src/app.py lines 196-212, the `GET /<code>` handler: inside try/except
run `ensure_db`, connect, and `SELECT url FROM links WHERE code=%s`; a
database exception becomes 503, no row becomes 404, a row becomes a 302
redirect to the stored url. -/
def go (code : String) (s : AppState) : AppState × ResolveResult :=
  match ensure_db s with
  | none => (s, .storeUnavailable)
  | some s1 =>
    if s1.available then
      match lookupCode s1.rows code with
      | none => (s1, .notFound)
      | some url => (s1, .redirect url)
    else (s1, .storeUnavailable)

/-- Number of `SELECT ... WHERE code=` probes in a trace: one per
candidate code attempted. -/
def countSelects (ops : List DbOp) : Nat :=
  ops.countP fun op =>
    match op with
    | .selectCode _ => true
    | _ => false

/-! ### Fixtures for witnesses and counterexamples -/

/-- A generator that proposes the code "aaaaaaa" on every attempt. -/
def g0 : Nat → String := fun _ => "aaaaaaa"

/-- Fresh state: flag unset, no table, no rows, database reachable. -/
def s0 : AppState := ⟨false, false, [], true⟩

/-- State with one stored link and the schema bootstrapped. -/
def s1 : AppState := ⟨true, true, [⟨"aaaaaaa", "https://example.com"⟩], true⟩

/-- Reachable-database flag off: every connection attempt raises. -/
def sDown : AppState := ⟨true, true, [⟨"aaaaaaa", "https://example.com"⟩], false⟩

/-! ### Helper lemmas -/

theorem lookupCode_eq_none {rows : List Row} {c : String} :
    lookupCode rows c = none ↔ ∀ r ∈ rows, r.code ≠ c := by
  simp [lookupCode, List.find?_eq_none]

theorem lookupCode_append_self {rows : List Row} {c u : String}
    (h : lookupCode rows c = none) :
    lookupCode (rows ++ [Row.mk c u]) c = some u := by
  have hf : List.find? (fun r => r.code == c) rows = none := by
    simpa [lookupCode] using h
  simp [lookupCode, List.find?_append, hf]

theorem ensure_db_some {s t : AppState} (h : ensure_db s = some t) :
    t.dbInitialized = true ∧ t.rows = s.rows ∧ t.available = s.available := by
  unfold ensure_db init_db at h
  by_cases hd : s.dbInitialized
  · simp [hd] at h
    subst h
    exact ⟨hd, rfl, rfl⟩
  · by_cases ha : s.available <;> simp [hd, ha] at h
    subst h
    exact ⟨rfl, rfl, ha.symm⟩

theorem ensure_db_of_initialized {t : AppState} (h : t.dbInitialized = true) :
    ensure_db t = some t := by
  simp [ensure_db, h]

theorem shortenLoop_created {url : String} {cands : List String} {rows rows2 : List Row}
    {ops : List DbOp} {c u : String}
    (h : shortenLoop url cands rows = (ops, rows2, .created c u)) :
    u = url ∧ lookupCode rows c = none ∧ rows2 = rows ++ [Row.mk c url] ∧
    DbOp.selectCode c ∈ ops ∧ DbOp.insertRow c url ∈ ops := by
  induction cands generalizing ops with
  | nil => simp [shortenLoop] at h
  | cons code rest ih =>
    rcases hrec : shortenLoop url rest rows with ⟨ops1, rows1, res1⟩
    cases hl : lookupCode rows code with
    | none =>
      simp only [shortenLoop, hl, Prod.mk.injEq, ShortenResult.created.injEq] at h
      obtain ⟨hops, hrows, hcode, hurl⟩ := h
      subst hops hrows hurl
      subst hcode
      exact ⟨rfl, hl, rfl, by simp, by simp⟩
    | some v =>
      simp only [shortenLoop, hl, hrec, Prod.mk.injEq] at h
      obtain ⟨hops, hrows, hres⟩ := h
      subst hops hrows hres
      obtain ⟨h1, h2, h3, h4, h5⟩ := ih hrec
      exact ⟨h1, h2, h3, List.mem_cons_of_mem _ h4, List.mem_cons_of_mem _ h5⟩

theorem shortenLoop_allCollide (url : String) {cands : List String} {rows : List Row}
    (h : ∀ c ∈ cands, lookupCode rows c ≠ none) :
    shortenLoop url cands rows = (cands.map DbOp.selectCode, rows, .codeSpaceExhausted) := by
  induction cands with
  | nil => rfl
  | cons code rest ih =>
    cases hl : lookupCode rows code with
    | none => exact absurd hl (h code (List.mem_cons_self _ _))
    | some v =>
      simp only [shortenLoop, hl, ih (fun c hc => h c (List.mem_cons_of_mem _ hc)),
        List.map_cons]

theorem shortenLoop_exhausted_rows {url : String} {cands : List String}
    {rows rows2 : List Row} {ops : List DbOp}
    (h : shortenLoop url cands rows = (ops, rows2, .codeSpaceExhausted)) :
    rows2 = rows := by
  induction cands generalizing ops with
  | nil => simp only [shortenLoop, Prod.mk.injEq] at h; exact h.2.1.symm
  | cons code rest ih =>
    rcases hrec : shortenLoop url rest rows with ⟨ops1, rows1, res1⟩
    cases hl : lookupCode rows code with
    | none => simp [shortenLoop, hl] at h
    | some v =>
      simp only [shortenLoop, hl, hrec, Prod.mk.injEq] at h
      obtain ⟨hops, hrows, hres⟩ := h
      subst hrows hres
      exact ih hrec

theorem shortenLoop_nodup (url : String) (cands : List String) (rows : List Row)
    (h : (rows.map Row.code).Nodup) :
    (((shortenLoop url cands rows).2.1).map Row.code).Nodup := by
  induction cands with
  | nil => simpa [shortenLoop]
  | cons code rest ih =>
    cases hl : lookupCode rows code with
    | none =>
      have hnotin : code ∉ rows.map Row.code := by
        rw [lookupCode_eq_none] at hl
        simp only [List.mem_map, not_exists]
        rintro r ⟨hr, hrc⟩
        exact hl r hr hrc
      simp only [shortenLoop, hl, List.map_append, List.map_cons, List.map_nil]
      exact List.Nodup.append h (List.nodup_singleton _)
        ((List.disjoint_singleton).mpr hnotin)
    | some v => simpa [shortenLoop, hl] using ih

theorem countSelects_shortenLoop_le (url : String) (cands : List String) (rows : List Row) :
    countSelects (shortenLoop url cands rows).1 ≤ cands.length := by
  induction cands with
  | nil => simp [shortenLoop, countSelects]
  | cons code rest ih =>
    cases hl : lookupCode rows code with
    | none => simp [shortenLoop, hl, countSelects, List.countP_cons]
    | some v =>
      simp only [shortenLoop, hl, countSelects, List.countP_cons, List.length_cons]
      simpa [countSelects] using Nat.add_le_add_right ih 1

theorem alphabet_chars : ∀ c ∈ alphabet,
    ('a' ≤ c ∧ c ≤ 'z') ∨ ('A' ≤ c ∧ c ≤ 'Z') ∨ ('0' ≤ c ∧ c ≤ '9') := by
  decide

theorem secretsChoice_alphabet_mem (r : Nat) : secretsChoice alphabet r ∈ alphabet := by
  have hb : ∀ i, i < alphabet.length → alphabet.getD i ' ' ∈ alphabet := by decide
  exact hb _ (Nat.mod_lt _ (by decide))

theorem shorten_created_inv {gen : Nat → String} {body : Body} {s s2 : AppState}
    {ops : List DbOp} {c u2 : String}
    (hs : shorten gen body s = (s2, ops, .created c u2)) :
    ∃ t, ensure_db s = some t ∧ t.available = true ∧ t.rows = s.rows ∧
      t.dbInitialized = true ∧
      is_valid_url (pyStrip (bodyUrl body)) = true ∧
      u2 = pyStrip (bodyUrl body) ∧
      lookupCode s.rows c = none ∧
      s2 = { t with rows := s.rows ++ [Row.mk c u2] } ∧
      DbOp.selectCode c ∈ ops ∧ DbOp.insertRow c u2 ∈ ops := by
  by_cases hv : is_valid_url (pyStrip (bodyUrl body)) = true
  · rcases he : ensure_db s with _ | t
    · simp [shorten, hv, he] at hs
    · obtain ⟨hinit, hrows, _⟩ := ensure_db_some he
      by_cases ha : t.available = true
      · rcases hrec : shortenLoop (pyStrip (bodyUrl body)) ((List.range 10).map gen) t.rows
          with ⟨ops1, rows1, res1⟩
        simp only [shorten, hv, Bool.not_true, Bool.false_eq_true, if_false, he, ha,
          if_true, hrec, Prod.mk.injEq] at hs
        obtain ⟨hs2, hops, hres⟩ := hs
        subst hops hres
        obtain ⟨hu, hnone, hrws, hsel, hins⟩ := shortenLoop_created hrec
        refine ⟨t, rfl, ha, hrows, hinit, hv, hu, ?_, ?_, hsel, by rw [hu]; exact hins⟩
        · rw [← hrows]; exact hnone
        · rw [← hs2, hrws, hrows, hu, ha]
      · simp [shorten, hv, he, ha] at hs
  · simp only [Bool.not_eq_true] at hv
    simp [shorten, hv] at hs

theorem go_rows_unchanged (code : String) (st : AppState) :
    ((go code st).1).rows = st.rows := by
  rcases he : ensure_db st with _ | t
  · simp [go, he]
  · have hrows := (ensure_db_some he).2.1
    by_cases ha : t.available = true
    · cases hl : lookupCode st.rows code <;> simp [go, he, ha, hrows, hl]
    · simp [go, he, ha, hrows]

theorem countSelects_shorten_le (gen : Nat → String) (body : Body) (s : AppState) :
    countSelects (shorten gen body s).2.1 ≤ 10 := by
  by_cases hv : is_valid_url (pyStrip (bodyUrl body)) = true
  · rcases he : ensure_db s with _ | t
    · simp [shorten, hv, he, countSelects]
    · by_cases ha : t.available = true
      · have hle := countSelects_shortenLoop_le (pyStrip (bodyUrl body))
          ((List.range 10).map gen) t.rows
        simp only [List.length_map, List.length_range] at hle
        simpa [shorten, hv, he, ha] using hle
      · simp [shorten, hv, he, ha, countSelects]
  · simp only [Bool.not_eq_true] at hv
    simp [shorten, hv, countSelects]

theorem countSelects_map_selectCode (l : List String) :
    countSelects (l.map DbOp.selectCode) = l.length := by
  induction l with
  | nil => rfl
  | cons a l ih => simp [countSelects, List.countP_cons] at ih ⊢

/-! ### Claim theorems -/

/-- C3: every code produced by the code generator (at its default length,
as `shorten` calls it) is a string of length exactly 7 each of whose
characters lies in the 62-character alphabet A-Z, a-z, 0-9 — for every
randomness source. -/
theorem gen_code_format (rand : Nat → Nat) :
    (gen_code rand 7).length = 7 ∧
    ∀ c ∈ (gen_code rand 7).data,
      ('a' ≤ c ∧ c ≤ 'z') ∨ ('A' ≤ c ∧ c ≤ 'Z') ∨ ('0' ≤ c ∧ c ≤ '9') := by
  constructor
  · simp [gen_code, String.length]
  · intro c hc
    simp only [gen_code, List.mem_map, List.mem_range] at hc
    obtain ⟨i, _, hi⟩ := hc
    exact hi ▸ alphabet_chars _ (secretsChoice_alphabet_mem _)

/-- C5: for every request body whose url field fails validation (after the
handler's strip), `shorten` returns the 400 client error with the state
untouched and an empty trace of store statements; and the specific
strings "ftp://x", "not a url" and "" all fail validation. -/
theorem shorten_rejects_invalid (gen : Nat → String) (body : Body) (s : AppState)
    (h : is_valid_url (pyStrip (bodyUrl body)) = false) :
    shorten gen body s = (s, [], .invalidInput) ∧
    is_valid_url "ftp://x" = false ∧
    is_valid_url "not a url" = false ∧
    is_valid_url "" = false ∧
    shortenStatus .invalidInput = 400 := by
  refine ⟨?_, by decide, by decide, by decide, rfl⟩
  simp [shorten, h]

/-- Witness for C5 at the concrete invalid input "ftp://x". -/
theorem shorten_rejects_invalid_witness :
    is_valid_url (pyStrip (bodyUrl (Body.json (some "ftp://x")))) = false ∧
    shorten g0 (Body.json (some "ftp://x")) s0 = (s0, [], .invalidInput) :=
  ⟨by decide, (shorten_rejects_invalid g0 (Body.json (some "ftp://x")) s0 (by decide)).1⟩

/-- C10: a missing or unparseable JSON body, and a JSON body without a url
field, are both treated as the empty-string URL: validation fails and
`shorten` returns the 400 client error without touching the store and
without raising. -/
theorem shorten_missing_body (gen : Nat → String) (s : AppState) :
    shorten gen .noJson s = (s, [], .invalidInput) ∧
    shorten gen (.json none) s = (s, [], .invalidInput) ∧
    bodyUrl .noJson = "" ∧ bodyUrl (.json none) = "" ∧
    shortenStatus .invalidInput = 400 := by
  have h : is_valid_url (pyStrip "") = false := by decide
  exact ⟨by simp [shorten, bodyUrl, h], by simp [shorten, bodyUrl, h], rfl, rfl, rfl⟩

/-- C2: for a valid absolute http/https URL u (no surrounding whitespace,
as a URL has none), a successful create stores u under the returned code
and resolving that code yields exactly u. -/
theorem resolve_create_roundtrip (gen : Nat → String) (u : String) (s s2 : AppState)
    (ops : List DbOp) (c u2 : String)
    (hval : is_valid_url u = true)
    (htrim : pyStrip u = u)
    (hs : shorten gen (Body.json (some u)) s = (s2, ops, .created c u2)) :
    u2 = u ∧ go c s2 = (s2, .redirect u) := by
  obtain ⟨t, he, ha, hrows, hinit, hv, hu, hnone, hs2, hsel, hins⟩ := shorten_created_inv hs
  have hu2 : u2 = u := by rw [hu]; simp [bodyUrl, htrim]
  subst hu2
  have hs2init : s2.dbInitialized = true := by rw [hs2]; exact hinit
  have hs2avail : s2.available = true := by rw [hs2]; exact ha
  have hlook : lookupCode s2.rows c = some u2 := by
    rw [hs2]
    exact lookupCode_append_self hnone
  exact ⟨rfl, by simp [go, ensure_db_of_initialized hs2init, hs2avail, hlook]⟩

/-- Witness for C2 at u = "https://example.com" on a fresh store. -/
theorem resolve_create_roundtrip_witness :
    is_valid_url "https://example.com" = true ∧
    pyStrip "https://example.com" = "https://example.com" ∧
    shorten g0 (Body.json (some "https://example.com")) s0 =
      (s1, [DbOp.selectCode "aaaaaaa",
            DbOp.insertRow "aaaaaaa" "https://example.com", DbOp.commit],
       .created "aaaaaaa" "https://example.com") ∧
    ("https://example.com" = "https://example.com" ∧
      go "aaaaaaa" s1 = (s1, .redirect "https://example.com")) :=
  ⟨by decide, by decide, by decide,
   resolve_create_roundtrip g0 "https://example.com" s0 s1
     [DbOp.selectCode "aaaaaaa", DbOp.insertRow "aaaaaaa" "https://example.com",
      DbOp.commit]
     "aaaaaaa" "https://example.com" (by decide) (by decide) (by decide)⟩

/-- C8: every accepted URL is persisted verbatim: a successful create
stores a row whose url is character-for-character the validated input
string (the stripped url field; when the field carries no surrounding
whitespace this is the field itself), and no later resolve mutates the
stored rows. -/
theorem stored_url_verbatim (gen : Nat → String) (body : Body) (s s2 : AppState)
    (ops : List DbOp) (c u2 : String)
    (hs : shorten gen body s = (s2, ops, .created c u2)) :
    u2 = pyStrip (bodyUrl body) ∧
    s2.rows = s.rows ++ [Row.mk c u2] ∧
    (pyStrip (bodyUrl body) = bodyUrl body → u2 = bodyUrl body) ∧
    ∀ code, ((go code s2).1).rows = s2.rows := by
  obtain ⟨t, he, ha, hrows, hinit, hv, hu, hnone, hs2, hsel, hins⟩ := shorten_created_inv hs
  refine ⟨hu, by rw [hs2], ?_, fun code => go_rows_unchanged code s2⟩
  intro h
  rw [hu, h]

/-- Witness for C8 at the concrete body url "https://example.com". -/
theorem stored_url_verbatim_witness :
    shorten g0 (Body.json (some "https://example.com")) s0 =
      (s1, [DbOp.selectCode "aaaaaaa",
            DbOp.insertRow "aaaaaaa" "https://example.com", DbOp.commit],
       .created "aaaaaaa" "https://example.com") ∧
    s1.rows = s0.rows ++ [Row.mk "aaaaaaa" "https://example.com"] :=
  ⟨by decide,
   (stored_url_verbatim g0 (Body.json (some "https://example.com")) s0 s1
     [DbOp.selectCode "aaaaaaa", DbOp.insertRow "aaaaaaa" "https://example.com",
      DbOp.commit]
     "aaaaaaa" "https://example.com" (by decide)).2.1⟩

/-- C7: with the store reachable, resolve of a code with no matching row
returns the 404 not-found outcome (not an error), lookup is by exact
case-sensitive string equality on the code, and the stored rows are
never mutated by a resolve. -/
theorem resolve_notfound_exact (code : String) (s : AppState)
    (ha : s.available = true) :
    ((go code s).1).rows = s.rows ∧
    ((go code s).2 = .notFound ↔ ∀ r ∈ s.rows, r.code ≠ code) ∧
    (∀ u, lookupCode s.rows code = some u → (go code s).2 = .redirect u) ∧
    resolveStatus .notFound = 404 ∧ ResolveResult.notFound ≠ .storeUnavailable := by
  rcases he : ensure_db s with _ | t
  · exfalso
    unfold ensure_db init_db at he
    by_cases hd : s.dbInitialized <;> simp [hd, ha] at he
  · obtain ⟨hinit, hrows, havail⟩ := ensure_db_some he
    have ht : t.available = true := by rw [havail]; exact ha
    refine ⟨go_rows_unchanged code s, ?_, ?_, rfl, by decide⟩
    · cases hl : lookupCode s.rows code with
      | none =>
        simp only [go, he, ht, hrows, hl, if_true]
        simpa using lookupCode_eq_none.mp hl
      | some v =>
        simp only [go, he, ht, hrows, hl, if_true]
        constructor
        · intro habs
          exact absurd habs (by simp)
        · intro hall
          have h0 := lookupCode_eq_none.mpr hall
          rw [hl] at h0
          exact absurd h0 (by simp)
    · intro v hv
      simp [go, he, ht, hrows, hv]

/-- Witness for C7 at the code "doesnotexist" against a one-row store. -/
theorem resolve_notfound_exact_witness :
    s1.available = true ∧ (go "doesnotexist" s1).2 = .notFound :=
  ⟨by decide,
   ((resolve_notfound_exact "doesnotexist" s1 (by decide)).2.1).mpr (by decide)⟩

/-- C4: on a valid request against a reachable store, when every one of
the 10 candidate codes collides with an existing row, `shorten` issues
exactly the 10 SELECT probes (no INSERT), leaves the rows unchanged, and
returns the terminal 500 CodeSpaceExhausted error; in every run the
number of candidate probes is at most 10. -/
theorem shorten_exhausted (gen : Nat → String) (body : Body) (s t : AppState)
    (hval : is_valid_url (pyStrip (bodyUrl body)) = true)
    (he : ensure_db s = some t)
    (ht : t.available = true)
    (hcol : ∀ i, i < 10 → lookupCode s.rows (gen i) ≠ none) :
    shorten gen body s =
      (t, ((List.range 10).map gen).map DbOp.selectCode, .codeSpaceExhausted) ∧
    t.rows = s.rows ∧
    countSelects (((List.range 10).map gen).map DbOp.selectCode) = 10 ∧
    (∀ op ∈ ((List.range 10).map gen).map DbOp.selectCode,
      ∀ c2 v2, op ≠ DbOp.insertRow c2 v2) ∧
    (∀ gen2 body2 s2, countSelects (shorten gen2 body2 s2).2.1 ≤ 10) ∧
    shortenStatus .codeSpaceExhausted = 500 := by
  have hrows := (ensure_db_some he).2.1
  have hcands : ∀ c ∈ (List.range 10).map gen, lookupCode t.rows c ≠ none := by
    intro c hc
    obtain ⟨i, hi, hci⟩ := List.mem_map.mp hc
    rw [hrows, ← hci]
    exact hcol i (List.mem_range.mp hi)
  have hloop := shortenLoop_allCollide (pyStrip (bodyUrl body)) hcands
  refine ⟨?_, hrows, ?_, ?_, fun g2 b2 st2 => countSelects_shorten_le g2 b2 st2, rfl⟩
  · have heta : AppState.mk t.dbInitialized t.tableExists t.rows true = t := by
      rw [← ht]
    simp [shorten, hval, he, ht, hloop, heta]
  · rw [countSelects_map_selectCode]
    simp
  · intro op hop c2 v2
    obtain ⟨c3, _, hc3⟩ := List.mem_map.mp hop
    rw [← hc3]
    simp

/-- Witness for C4: all ten candidates equal a code already stored. -/
theorem shorten_exhausted_witness :
    ensure_db s1 = some s1 ∧
    shorten g0 (Body.json (some "https://example.com")) s1 =
      (s1, ((List.range 10).map g0).map DbOp.selectCode, .codeSpaceExhausted) :=
  ⟨by decide,
   (shorten_exhausted g0 (Body.json (some "https://example.com")) s1 s1
     (by decide) (by decide) (by decide) (by decide)).1⟩

/-- C6: when the store is unreachable, a valid create and any resolve
both return the 503 StoreUnavailable outcome with the state untouched;
this outcome is distinct from NotFound and from CodeSpaceExhausted (and
from every success). -/
theorem store_unavailable_surfaced (gen : Nat → String) (body : Body) (code : String)
    (s : AppState)
    (hval : is_valid_url (pyStrip (bodyUrl body)) = true)
    (hdown : s.available = false) :
    shorten gen body s = (s, [], .storeUnavailable) ∧
    go code s = (s, .storeUnavailable) ∧
    shortenStatus .storeUnavailable = 503 ∧
    resolveStatus .storeUnavailable = 503 ∧
    ShortenResult.storeUnavailable ≠ .codeSpaceExhausted ∧
    ResolveResult.storeUnavailable ≠ .notFound ∧
    ∀ c2 u2, ShortenResult.storeUnavailable ≠ .created c2 u2 := by
  by_cases hd : s.dbInitialized = true
  · have he : ensure_db s = some s := ensure_db_of_initialized hd
    refine ⟨?_, ?_, rfl, rfl, by decide, by decide, by simp⟩
    · simp [shorten, hval, he, hdown]
    · simp [go, he, hdown]
  · have hd2 : s.dbInitialized = false := by simpa using hd
    have he : ensure_db s = none := by simp [ensure_db, init_db, hd2, hdown]
    refine ⟨?_, ?_, rfl, rfl, by decide, by decide, by simp⟩
    · simp [shorten, hval, he]
    · simp [go, he]

/-- Witness for C6 against an unreachable store holding one row. -/
theorem store_unavailable_surfaced_witness :
    is_valid_url (pyStrip (bodyUrl (Body.json (some "https://example.com")))) = true ∧
    sDown.available = false ∧
    (shorten g0 (Body.json (some "https://example.com")) sDown =
      (sDown, [], .storeUnavailable)) ∧
    go "aaaaaaa" sDown = (sDown, .storeUnavailable) :=
  ⟨by decide, by decide,
   (store_unavailable_surfaced g0 (Body.json (some "https://example.com")) "aaaaaaa"
      sDown (by decide) (by decide)).1,
   (store_unavailable_surfaced g0 (Body.json (some "https://example.com")) "aaaaaaa"
      sDown (by decide) (by decide)).2.1⟩

/-- C9: the schema bootstrap is idempotent: a second run of `init_db`
(CREATE TABLE IF NOT EXISTS) returns the state of the first run
unchanged, the table exists afterwards and no rows are lost; likewise a
second run of the flag-guarded `ensure_db` changes nothing and loses no
rows. -/
theorem bootstrap_idempotent (s t u : AppState)
    (hi : init_db s = some t) (he : ensure_db s = some u) :
    init_db t = some t ∧ t.tableExists = true ∧ t.rows = s.rows ∧
    ensure_db u = some u ∧ u.rows = s.rows := by
  obtain ⟨huinit, hurows, _⟩ := ensure_db_some he
  by_cases ha : s.available = true
  · simp only [init_db, ha, if_true, Option.some.injEq] at hi
    subst hi
    exact ⟨by simp [init_db, ha], rfl, rfl, ensure_db_of_initialized huinit, hurows⟩
  · rw [init_db, if_neg ha] at hi
    exact Option.noConfusion hi

/-- Witness for C9 on a fresh reachable state. -/
theorem bootstrap_idempotent_witness :
    init_db s0 = some (AppState.mk false true [] true) ∧
    ensure_db s0 = some (AppState.mk true true [] true) ∧
    (init_db (AppState.mk false true [] true) = some (AppState.mk false true [] true) ∧
     (AppState.mk false true [] true).tableExists = true ∧
     (AppState.mk false true [] true).rows = s0.rows ∧
     ensure_db (AppState.mk true true [] true) = some (AppState.mk true true [] true) ∧
     (AppState.mk true true [] true).rows = s0.rows) :=
  ⟨by decide, by decide,
   bootstrap_idempotent s0 (AppState.mk false true [] true)
     (AppState.mk true true [] true) (by decide) (by decide)⟩

/-- C1 as stated is refuted: a successful create issues a SELECT
existence probe for its candidate code before the INSERT — the statement
trace of a successful create on a fresh store is SELECT, then a plain
(unconditional) INSERT, then COMMIT, i.e. a separate SELECT-then-INSERT
rather than a single atomic insert-if-absent. -/
theorem create_select_then_insert_trace :
    shorten g0 (Body.json (some "https://example.com")) s0 =
      (s1,
       [DbOp.selectCode "aaaaaaa", DbOp.insertRow "aaaaaaa" "https://example.com",
        DbOp.commit],
       .created "aaaaaaa" "https://example.com") ∧
    (shorten g0 (Body.json (some "https://example.com")) s0).2.1.head? =
      some (DbOp.selectCode "aaaaaaa") := by decide

/-- C1 (amended): create uses a prior SELECT existence check followed by
a plain INSERT (SELECT-then-INSERT) as its collision-avoidance mechanism;
in this sequential model the INSERT is executed only when the probe found
no row with that code, so every execution of create preserves the
invariant that stored codes are unique. -/
theorem create_preserves_unique_codes (gen : Nat → String) (body : Body)
    (s s2 : AppState) (ops : List DbOp) (res : ShortenResult)
    (hs : shorten gen body s = (s2, ops, res))
    (hnd : (s.rows.map Row.code).Nodup) :
    (s2.rows.map Row.code).Nodup ∧
    ∀ c u, res = .created c u →
      lookupCode s.rows c = none ∧ DbOp.selectCode c ∈ ops ∧ DbOp.insertRow c u ∈ ops := by
  by_cases hv : is_valid_url (pyStrip (bodyUrl body)) = true
  · rcases he : ensure_db s with _ | t
    · simp only [shorten, hv, Bool.not_true, Bool.false_eq_true, if_false, he,
        Prod.mk.injEq] at hs
      obtain ⟨h1, h2, h3⟩ := hs
      subst h1 h2 h3
      exact ⟨hnd, by intro c u h; exact ShortenResult.noConfusion h⟩
    · have hrows := (ensure_db_some he).2.1
      by_cases ha : t.available = true
      · rcases hrec : shortenLoop (pyStrip (bodyUrl body)) ((List.range 10).map gen) t.rows
          with ⟨ops1, rows1, res1⟩
        simp only [shorten, hv, Bool.not_true, Bool.false_eq_true, if_false, he, ha,
          if_true, hrec, Prod.mk.injEq] at hs
        obtain ⟨h1, h2, h3⟩ := hs
        subst h1 h2 h3
        constructor
        · have := shortenLoop_nodup (pyStrip (bodyUrl body))
            ((List.range 10).map gen) t.rows (by rw [hrows]; exact hnd)
          rw [hrec] at this
          simpa using this
        · intro c u hres
          subst hres
          obtain ⟨hu, hnone, _, hsel, hins⟩ := shortenLoop_created hrec
          rw [hrows] at hnone
          exact ⟨hnone, hsel, by rw [hu]; exact hins⟩
      · simp only [shorten, hv, Bool.not_true, Bool.false_eq_true, if_false, he, ha,
          if_true, if_false, Prod.mk.injEq] at hs
        obtain ⟨h1, h2, h3⟩ := hs
        subst h1 h2 h3
        refine ⟨by rw [hrows]; exact hnd, ?_⟩
        intro c u h
        exact ShortenResult.noConfusion h
  · simp only [Bool.not_eq_true] at hv
    simp only [shorten, hv, Bool.not_false, if_true, Prod.mk.injEq] at hs
    obtain ⟨h1, h2, h3⟩ := hs
    subst h1 h2 h3
    exact ⟨hnd, by intro c u h; exact ShortenResult.noConfusion h⟩

/-- Witness for the amended C1 on a fresh store with a unique-code row
set. -/
theorem create_preserves_unique_codes_witness :
    shorten g0 (Body.json (some "https://example.com")) s0 =
      (s1, [DbOp.selectCode "aaaaaaa",
            DbOp.insertRow "aaaaaaa" "https://example.com", DbOp.commit],
       .created "aaaaaaa" "https://example.com") ∧
    (s0.rows.map Row.code).Nodup ∧
    (s1.rows.map Row.code).Nodup :=
  ⟨by decide, by decide,
   (create_preserves_unique_codes g0 (Body.json (some "https://example.com")) s0 s1
     [DbOp.selectCode "aaaaaaa", DbOp.insertRow "aaaaaaa" "https://example.com",
      DbOp.commit]
     (.created "aaaaaaa" "https://example.com") (by decide) (by decide)).1⟩

end Shortlink
